import Mathlib

/-!
Shallow embedding of the eslint-stylistic layout rules under verification:
`generator-star-spacing`, `arrow-spacing` (src/unnamed/part_000), and the
TypeScript `no-extra-parens` override plus `jsx-newline`
(src/packages/eslint-plugin-ts/rules/no-extra-parens/no-extra-parens.ts).

Tokens carry their stream position (`range[0]`/`range[1]` in the source become
`rangeStart`/`rangeEnd`); token identity is value equality, which matches the
source because a token is determined by its position in the stream.
JavaScript numeric gaps `right.range[0] - left.range[1]` are modelled as `Int`
subtraction so that the JS truthiness test `!!gap` is `gap ≠ 0` exactly.
-/

namespace ES

/-- A lexical token as the rules see it. -/
structure Token where
  type : String
  value : String
  rangeStart : Nat
  rangeEnd : Nat
deriving DecidableEq

/-- A single contiguous replacement produced by a fixer. -/
structure TextEdit where
  rangeStart : Nat
  rangeEnd : Nat
  text : String
deriving DecidableEq

/-- `fixer.insertTextBefore(tok, s)`. -/
def insertTextBefore (t : Token) (s : String) : TextEdit :=
  ⟨t.rangeStart, t.rangeStart, s⟩

/-- `fixer.insertTextAfter(tok, s)`. -/
def insertTextAfter (t : Token) (s : String) : TextEdit :=
  ⟨t.rangeEnd, t.rangeEnd, s⟩

/-- `fixer.removeRange([a, b])`. -/
def removeRange (a b : Nat) : TextEdit :=
  ⟨a, b, ""⟩

/-- Apply one text edit to a source string (offsets are character offsets;
all concrete sources in this development are ASCII). -/
def applyEdit (s : String) (e : TextEdit) : String :=
  String.mk (s.data.take e.rangeStart ++ e.text.data ++ s.data.drop e.rangeEnd)

/-- Helper for `getTokenBeforeTok`: walk the stream remembering the previous
token. -/
def tokenBeforeAux (tok : Token) : Token → List Token → Option Token
  | _, [] => none
  | prev, t :: rest => if t = tok then some prev else tokenBeforeAux tok t rest

/-- `sourceCode.getTokenBefore(token)`: the token immediately preceding
`tok` in the stream. -/
def getTokenBeforeTok (ts : List Token) (tok : Token) : Option Token :=
  match ts with
  | [] => none
  | t :: rest => if t = tok then none else tokenBeforeAux tok t rest

/-- `sourceCode.getTokenAfter(token)`: the token immediately following `tok`
in the stream. -/
def getTokenAfterTok : List Token → Token → Option Token
  | [], _ => none
  | t :: rest, tok => if t = tok then rest.head? else getTokenAfterTok rest tok

/-- `sourceCode.getFirstToken(node, pred)`: first token inside the node's
range satisfying the predicate (`pred` omitted = always true). -/
def getFirstTokenIn (ts : List Token) (lo hi : Nat) (p : Token → Bool) : Option Token :=
  (ts.filter fun t => decide (lo ≤ t.rangeStart) && decide (t.rangeEnd ≤ hi)).find? p

/-- `sourceCode.getTokenAfter(node, pred)`: first token starting at or after
position `pos` (the node's range end) satisfying the predicate. -/
def getTokenAfterPos (ts : List Token) (pos : Nat) (p : Token → Bool) : Option Token :=
  (ts.filter fun t => decide (pos ≤ t.rangeStart)).find? p

/-- `sourceCode.getTokenBefore(node, pred)`: last token ending at or before
position `pos` (the node's range start) satisfying the predicate. -/
def getTokenBeforePos (ts : List Token) (pos : Nat) (p : Token → Bool) : Option Token :=
  ((ts.filter fun t => decide (t.rangeEnd ≤ pos)).reverse).find? p

/-- A resolved per-bucket spacing requirement. -/
structure SpacingPolicy where
  before : Bool
  after : Bool
deriving DecidableEq

/-! ## generator-star-spacing (src/unnamed/part_000, first rule) -/

/-- The four shorthand option strings. -/
inductive Shorthand where
  | before
  | after
  | both
  | neither
deriving DecidableEq

/-- The `optionDefinitions` table. -/
def optionDefinitions : Shorthand → SpacingPolicy
  | .before => ⟨true, false⟩
  | .after => ⟨false, true⟩
  | .both => ⟨true, true⟩
  | .neither => ⟨false, false⟩

/-- One bucket-level option value: absent, a shorthand string, or an object
with optional `before`/`after` booleans. -/
inductive BucketOption where
  | undef
  | str (s : Shorthand)
  | obj (beforeField afterField : Option Bool)
deriving DecidableEq

/-- `optionToDefinition(option, defaults)`: absent options fall back to the
defaults, strings use the table, objects are `Object.assign({}, defaults,
option)` — present fields win, absent fields keep the defaults. -/
def optionToDefinition (option : BucketOption) (defaults : SpacingPolicy) : SpacingPolicy :=
  match option with
  | .undef => defaults
  | .str s => optionDefinitions s
  | .obj b a => ⟨b.getD defaults.before, a.getD defaults.after⟩

/-- The top-level object option, with optional `before`/`after` and the three
per-bucket overrides. -/
structure TopObjOption where
  beforeField : Option Bool
  afterField : Option Bool
  named : BucketOption
  anonymous : BucketOption
  method : BucketOption
deriving DecidableEq

/-- `context.options[0]`: either a shorthand string or an object. -/
inductive TopOption where
  | str (s : Shorthand)
  | obj (o : TopObjOption)
deriving DecidableEq

/-- Reading the top-level option as a bucket-level option (a string stays a
string; an object contributes only its `before`/`after` fields, which is all
`optionToDefinition` reads from it). -/
def TopOption.asBucket : TopOption → BucketOption
  | .str s => .str s
  | .obj o => .obj o.beforeField o.afterField

/-- `option.named`: `undefined` on a string option. -/
def TopOption.namedOpt : TopOption → BucketOption
  | .str _ => .undef
  | .obj o => o.named

/-- `option.anonymous`: `undefined` on a string option. -/
def TopOption.anonymousOpt : TopOption → BucketOption
  | .str _ => .undef
  | .obj o => o.anonymous

/-- `option.method`: `undefined` on a string option. -/
def TopOption.methodOpt : TopOption → BucketOption
  | .str _ => .undef
  | .obj o => o.method

/-- The resolved per-bucket policies. -/
structure Modes where
  named : SpacingPolicy
  anonymous : SpacingPolicy
  method : SpacingPolicy
deriving DecidableEq

/-- The `modes` IIFE: `context.options[0] || {}`, global defaults resolved
from `optionDefinitions.before`, then each bucket resolved independently
against the already-overridden defaults. -/
def computeModes (options0 : Option TopOption) : Modes :=
  let option := options0.getD (.obj ⟨none, none, .undef, .undef, .undef⟩)
  let defaults := optionToDefinition option.asBucket (optionDefinitions .before)
  ⟨optionToDefinition option.namedOpt defaults,
   optionToDefinition option.anonymousOpt defaults,
   optionToDefinition option.methodOpt defaults⟩

/-- The three policy buckets. -/
inductive FnKind where
  | named
  | anonymous
  | method
deriving DecidableEq

/-- A checked side of the star. -/
inductive Side where
  | before
  | after
deriving DecidableEq

/-- `modes[kind]`. -/
def Modes.policy (m : Modes) : FnKind → SpacingPolicy
  | .named => m.named
  | .anonymous => m.anonymous
  | .method => m.method

/-- `policy[side]`. -/
def SpacingPolicy.side (p : SpacingPolicy) : Side → Bool
  | .before => p.before
  | .after => p.after

/-- The side parameter as the string the source passes around. -/
def sideName : Side → String
  | .before => "before"
  | .after => "after"

/-- `capitalize(str)` from the source. -/
def capitalize (str : String) : String :=
  match str.data with
  | [] => ""
  | c :: rest => String.mk (c.toUpper :: rest)

/-- One reported violation: the node (token) it is reported on, the
messageId, and the single fix. -/
structure Violation where
  node : Token
  messageId : String
  fix : TextEdit
deriving DecidableEq

/-- `checkSpacing(kind, side, leftToken, rightToken)`: fires when the JS
truthiness of `rightToken.range[0] - leftToken.range[1]` differs from the
policy boolean; `after` is `leftToken.value === '*'`, the reported node is
`after ? leftToken : rightToken`, the messageId is
`(missing|unexpected) + capitalize(side)`, and the fix inserts one space
next to the node or removes the whole gap. -/
def checkSpacing (modes : Modes) (kind : FnKind) (side : Side)
    (leftToken rightToken : Token) : Option Violation :=
  let gap : Int := (rightToken.rangeStart : Int) - (leftToken.rangeEnd : Int)
  if decide (gap ≠ 0) ≠ (modes.policy kind).side side then
    let after := leftToken.value == "*"
    let spaceRequired := (modes.policy kind).side side
    let node := if after then leftToken else rightToken
    let messageId := (if spaceRequired then "missing" else "unexpected") ++ capitalize (sideName side)
    let fix :=
      if spaceRequired then
        if after then insertTextAfter node " " else insertTextBefore node " "
      else
        removeRange leftToken.rangeEnd rightToken.rangeStart
    some ⟨node, messageId, fix⟩
  else
    none

/-- The parent node kinds `checkFunction` distinguishes. -/
inductive ParentType where
  | MethodDefinition
  | Property
  | Program
  | Other
deriving DecidableEq

/-- The parent of a function node: its kind, its `method` field when such a
field exists (`none` models a parent without one), and its range. -/
structure ParentNode where
  ptype : ParentType
  methodField : Option Bool
  rangeStart : Nat
  rangeEnd : Nat
deriving DecidableEq

/-- A `FunctionDeclaration`/`FunctionExpression` node as the rule reads it. -/
structure FnNode where
  generator : Bool
  hasId : Bool
  rangeStart : Nat
  rangeEnd : Nat
  parent : ParentNode
deriving DecidableEq

/-- `isStarToken(token)`. -/
def isStarToken (token : Token) : Bool :=
  token.value == "*" && token.type == "Punctuator"

/-- `getStarToken(node)`: first star token of the owning member definition
when the parent is a method-ish owner, else of the function node itself. -/
def getStarToken (tokens : List Token) (node : FnNode) : Option Token :=
  if node.parent.methodField.getD false || node.parent.ptype == .MethodDefinition then
    getFirstTokenIn tokens node.parent.rangeStart node.parent.rangeEnd isStarToken
  else
    getFirstTokenIn tokens node.rangeStart node.rangeEnd isStarToken

/-- The bucket assignment inside `checkFunction`. -/
def classifyKind (node : FnNode) : FnKind :=
  if node.parent.ptype == .MethodDefinition
      || (node.parent.ptype == .Property && node.parent.methodField.getD false) then
    .method
  else if !node.hasId then
    .anonymous
  else
    .named

/-- `checkFunction(node)`: skip non-generators; locate the star and its
stream neighbours (`none` models the impossible missing-token crash); check
the before side unless the node is a method whose star is the first token of
the member definition; always check the after side. Violations are listed in
report order (before first). -/
def checkFunction (modes : Modes) (tokens : List Token) (node : FnNode) :
    Option (List Violation) :=
  if !node.generator then
    some []
  else
    match getStarToken tokens node with
    | none => none
    | some starToken =>
      match getTokenBeforeTok tokens starToken, getTokenAfterTok tokens starToken with
      | some prevToken, some nextToken =>
        let kind := classifyKind node
        let beforeViol :=
          if !(kind == .method
              && getFirstTokenIn tokens node.parent.rangeStart node.parent.rangeEnd
                   (fun _ => true) == some starToken) then
            checkSpacing modes kind .before prevToken starToken
          else
            none
        let afterViol := checkSpacing modes kind .after starToken nextToken
        some (beforeViol.toList ++ afterViol.toList)
      | _, _ => none

/-! ## arrow-spacing (src/unnamed/part_000, second rule) -/

/-- `isArrowToken` from the shared ast-utils: value `=>`, type Punctuator. -/
def isArrowToken (token : Token) : Bool :=
  token.value == "=>" && token.type == "Punctuator"

/-- `context.options[0]` for arrow-spacing. -/
structure ArrowOptions where
  beforeField : Option Bool
  afterField : Option Bool
deriving DecidableEq

/-- `rule.before = rule.before !== false` (and likewise `after`): true unless
the user explicitly passed `false`. -/
def resolveArrowRule (options0 : Option ArrowOptions) : SpacingPolicy :=
  let rule := options0.getD ⟨none, none⟩
  ⟨!(rule.beforeField == some false), !(rule.afterField == some false)⟩

/-- The token triple returned by `getTokens`. -/
structure ArrowTokens where
  before : Token
  arrow : Token
  after : Token
deriving DecidableEq

/-- `getTokens(node)`: the arrow is the last `=>` token before the body,
flanked by its stream neighbours. -/
def getTokens (tokens : List Token) (bodyStart : Nat) : Option ArrowTokens :=
  match getTokenBeforePos tokens bodyStart isArrowToken with
  | none => none
  | some arrow =>
    match getTokenBeforeTok tokens arrow, getTokenAfterTok tokens arrow with
    | some b, some a => some ⟨b, arrow, a⟩
    | _, _ => none

/-- `countSpaces(tokens).before`. -/
def countSpacesBefore (t : ArrowTokens) : Int :=
  (t.arrow.rangeStart : Int) - (t.before.rangeEnd : Int)

/-- `countSpaces(tokens).after`. -/
def countSpacesAfter (t : ArrowTokens) : Int :=
  (t.after.rangeStart : Int) - (t.arrow.rangeEnd : Int)

/-- The before-side branch of `spaces`. -/
def spacesBefore (rule : SpacingPolicy) (tokens : ArrowTokens) : Option Violation :=
  if rule.before then
    if countSpacesBefore tokens = 0 then
      some ⟨tokens.before, "expectedBefore", insertTextBefore tokens.arrow " "⟩
    else
      none
  else
    if 0 < countSpacesBefore tokens then
      some ⟨tokens.before, "unexpectedBefore", removeRange tokens.before.rangeEnd tokens.arrow.rangeStart⟩
    else
      none

/-- The after-side branch of `spaces`. -/
def spacesAfter (rule : SpacingPolicy) (tokens : ArrowTokens) : Option Violation :=
  if rule.after then
    if countSpacesAfter tokens = 0 then
      some ⟨tokens.after, "expectedAfter", insertTextAfter tokens.arrow " "⟩
    else
      none
  else
    if 0 < countSpacesAfter tokens then
      some ⟨tokens.after, "unexpectedAfter", removeRange tokens.arrow.rangeEnd tokens.after.rangeStart⟩
    else
      none

/-- `spaces(node)`: both side checks in report order. -/
def spaces (rule : SpacingPolicy) (tokens : ArrowTokens) : List Violation :=
  (spacesBefore rule tokens).toList ++ (spacesAfter rule tokens).toList

/-! ## no-extra-parens override
(src/packages/eslint-plugin-ts/rules/no-extra-parens/no-extra-parens.ts).
The base rule is an external collaborator, so each override is modelled as
the value it passes to the base rule's delegate (`none` = the delegate is
not invoked for this node). -/

/-- The AST node kinds the overrides inspect or fabricate. -/
inductive NodeType where
  | TSAsExpression
  | TSTypeAssertion
  | SequenceExpression
  | BinaryExpression
  | LogicalExpression
  | CallExpression
  | NewExpression
  | Identifier
  | OtherExpr
deriving DecidableEq

/-- An expression operand: its kind, range and (as `data`) all the remaining
fields, which spread copies preserve verbatim. -/
structure ENode where
  type : NodeType
  rangeStart : Nat
  rangeEnd : Nat
  data : Nat
deriving DecidableEq

/-- `isTypeAssertion` from `@typescript-eslint/utils/ast-utils` (imported,
not part of this repository): the node kind is `TSAsExpression` or
`TSTypeAssertion`. -/
def isTypeAssertion (t : NodeType) : Bool :=
  t == .TSAsExpression || t == .TSTypeAssertion

/-- The `{ ...operand, type: AST_NODE_TYPES.SequenceExpression }` spread
copy: only the kind changes. -/
def toSequenceExpression (e : ENode) : ENode :=
  { e with type := .SequenceExpression }

/-- A binary or logical expression node. -/
structure BinNode where
  type : NodeType
  left : ENode
  right : ENode
  data : Nat
deriving DecidableEq

/-- `binaryExp(node)`: the value handed to the base rule's
`BinaryExpression` delegate, `none` when both operands are type
assertions. -/
def binaryExp (node : BinNode) : Option BinNode :=
  let isLeftTypeAssertion := isTypeAssertion node.left.type
  let isRightTypeAssertion := isTypeAssertion node.right.type
  if isLeftTypeAssertion && isRightTypeAssertion then
    none
  else if isLeftTypeAssertion then
    some { node with left := toSequenceExpression node.left }
  else if isRightTypeAssertion then
    some { node with right := toSequenceExpression node.right }
  else
    some node

/-- `isOpeningParenToken` from the ast-utils. -/
def isOpeningParenToken (t : Token) : Bool :=
  t.value == "(" && t.type == "Punctuator"

/-- A call or `new` expression node. -/
structure CallNode where
  type : NodeType
  callee : ENode
  arguments : List ENode
  data : Nat
deriving DecidableEq

/-- `callExp(node)`: substitute the callee when it is a type assertion;
otherwise, with exactly one argument, substitute that argument exactly when
the first opening parenthesis after the callee is not the opening
parenthesis before the argument (explicit type arguments intervene). -/
def callExp (tokens : List Token) (node : CallNode) : CallNode :=
  if isTypeAssertion node.callee.type then
    { node with callee := toSequenceExpression node.callee }
  else
    match node.arguments with
    | [arg0] =>
      if getTokenAfterPos tokens node.callee.rangeEnd isOpeningParenToken
          ≠ getTokenBeforePos tokens arg0.rangeStart isOpeningParenToken then
        { node with arguments := [toSequenceExpression arg0] }
      else
        node
    | _ => node

/-- A three-clause `for` statement header. -/
structure ForNode where
  init : Option ENode
  test : Option ENode
  update : Option ENode
  data : Nat
deriving DecidableEq

/-- `clause && isTypeAssertion(clause)`. -/
def isTAClause (c : Option ENode) : Bool :=
  match c with
  | some e => isTypeAssertion e.type
  | none => false

/-- The `ForStatement` override: the value handed to the base delegate. The
source tests init, then test, then update, each with an early return, so at
most one clause is ever removed. -/
def forStatement (node : ForNode) : ForNode :=
  if isTAClause node.init then
    { node with init := none }
  else if isTAClause node.test then
    { node with test := none }
  else if isTAClause node.update then
    { node with update := none }
  else
    node

/-- The two for-each statement kinds. -/
inductive ForEachKind where
  | ForInStatement
  | ForOfStatement
deriving DecidableEq

/-- A `for-in`/`for-of` node: its kind and its right-hand iteration
target. -/
structure ForEachNode where
  type : ForEachKind
  right : ENode
  data : Nat
deriving DecidableEq

/-- Which base delegate an override invokes. -/
inductive DelegateKind where
  | forInDelegate
  | forOfDelegate
  | combinedDelegate
deriving DecidableEq

/-- The substituted for-each node `{ ...node, type: ForOfStatement, right:
{ ...node.right, type: SequenceExpression } }`. -/
def forEachSubstituted (node : ForEachNode) : ForEachNode :=
  { node with type := .ForOfStatement, right := toSequenceExpression node.right }

/-- The per-kind `ForInStatement` override (installed when the base rule has
both per-kind callbacks): a type-assertion right is not validated at all. -/
def forInOverride (node : ForEachNode) : Option ForEachNode :=
  if isTypeAssertion node.right.type then
    none
  else
    some node

/-- The per-kind `ForOfStatement` override: a type-assertion right is
substituted so the base rule skips it. -/
def forOfOverride (node : ForEachNode) : Option ForEachNode :=
  if isTypeAssertion node.right.type then
    some (forEachSubstituted node)
  else
    some node

/-- The combined `'ForInStatement, ForOfStatement'` override (installed when
the base rule lacks the per-kind callbacks). -/
def combinedOverride (node : ForEachNode) : Option ForEachNode :=
  if isTypeAssertion node.right.type then
    some (forEachSubstituted node)
  else
    some node

/-- Which delegate runs for a for-each node and what it receives, as a
function of whether the host base rule has the per-kind callbacks
(`rules.ForInStatement && rules.ForOfStatement`). Only a delegate the host
actually has is ever named, so the absent-callback configuration cannot
crash. -/
def forEachDispatch (perKindAvailable : Bool) (node : ForEachNode) :
    DelegateKind × Option ForEachNode :=
  if perKindAvailable then
    match node.type with
    | .ForInStatement => (.forInDelegate, forInOverride node)
    | .ForOfStatement => (.forOfDelegate, forOfOverride node)
  else
    (.combinedDelegate, combinedOverride node)

/-! ## jsx-newline (same source file, second rule) -/

/-- JSX child node kinds. -/
inductive JSXType where
  | JSXElement
  | JSXExpressionContainer
  | Literal
  | JSXText
  | OtherChild
deriving DecidableEq

/-- A JSX child as the rule reads it: its kind, its `value` (text content of
`Literal`/`JSXText` siblings), its raw source text (`sourceCode.getText`),
and whether its location spans several lines (`loc.start.line !==
loc.end.line`). -/
structure JSXChild where
  ctype : JSXType
  value : List Char
  raw : List Char
  multiline : Bool
deriving DecidableEq

/-- The regex `/^\s*\x7b\/\*/`: optional whitespace, then a curly brace
opening a block comment. (`\s` is modelled by `Char.isWhitespace`; the
sources involved are ASCII.) -/
def startsBlockComment : List Char → Bool
  | [] => false
  | c :: rest =>
    if c = '\x7b' then
      match rest with
      | '/' :: '*' :: _ => true
      | _ => false
    else
      c.isWhitespace && startsBlockComment rest

/-- `isBlockCommentInCurlyBraces(element)`. -/
def isBlockCommentInCurlyBraces (element : JSXChild) : Bool :=
  startsBlockComment element.raw

/-- `isNonBlockComment(element)`. -/
def isNonBlockComment (element : JSXChild) : Bool :=
  !isBlockCommentInCurlyBraces element
    && (element.ctype == .JSXElement || element.ctype == .JSXExpressionContainer)

/-- Continuation of the `/\n\s*\n/` match after the first newline: zero or
more whitespace characters, then a newline. -/
def blankRestMatch : List Char → Bool
  | [] => false
  | c :: rest => c = '\n' || (c.isWhitespace && blankRestMatch rest)

/-- `/\n\s*\n/.test(value)`: some newline is followed, across whitespace, by
another newline. -/
def hasBlankLineMatch : List Char → Bool
  | [] => false
  | c :: rest => (c = '\n' && blankRestMatch rest) || hasBlankLineMatch rest

/-- The rule's options after defaulting (`prevent`/`allowMultilines` both
default to `false`). -/
structure JSXOptions where
  prevent : Bool
  allowMultilines : Bool
deriving DecidableEq

/-- One jsx-newline report: messageId and the node it is reported on. -/
structure JSXReport where
  messageId : String
  node : JSXChild
deriving DecidableEq

/-- `isMultilined(x)` applied to a possibly-absent element. -/
def isMultilinedOpt (o : Option JSXChild) : Bool :=
  (o.map (·.multiline)).getD false

/-- The body of the per-child callback inside `Program:exit`: the report (if
any) produced for the child at `index` of the parent's `children` list. -/
def checkChild (opts : JSXOptions) (elements : List JSXChild) (index : Nat) :
    Option JSXReport :=
  match elements.get? index with
  | none => none
  | some element =>
    if element.ctype == .JSXElement || element.ctype == .JSXExpressionContainer then
      match elements.get? (index + 1), elements.get? (index + 2) with
      | some firstAdjacentSibling, some secondAdjacentSibling =>
        if firstAdjacentSibling.ctype == .Literal || firstAdjacentSibling.ctype == .JSXText then
          let isWithoutNewLine := !hasBlankLineMatch firstAdjacentSibling.value
          if isBlockCommentInCurlyBraces element then
            none
          else if opts.allowMultilines
              && (element.multiline
                  || isMultilinedOpt ((elements.drop (index + 2)).find? isNonBlockComment)) then
            if !isWithoutNewLine then
              none
            else
              some ⟨"allowMultilines", secondAdjacentSibling⟩
          else if isWithoutNewLine == opts.prevent then
            none
          else
            some ⟨if opts.prevent then "prevent" else "require", secondAdjacentSibling⟩
        else
          none
      | _, _ => none
    else
      none

/-! ## Concrete instances used by the claims -/

/-- Token stream of the source text `function* foo() {}`. -/
def tokensA : List Token :=
  [⟨"Keyword", "function", 0, 8⟩, ⟨"Punctuator", "*", 8, 9⟩,
   ⟨"Identifier", "foo", 10, 13⟩, ⟨"Punctuator", "(", 13, 14⟩,
   ⟨"Punctuator", ")", 14, 15⟩, ⟨"Punctuator", "\x7b", 16, 17⟩,
   ⟨"Punctuator", "\x7d", 17, 18⟩]

/-- The `FunctionDeclaration` of `function* foo() {}` (parent: Program). -/
def nodeA : FnNode := ⟨true, true, 0, 18, ⟨.Program, none, 0, 18⟩⟩

/-- Token stream of the source text `function *foo(){}`. -/
def tokensB : List Token :=
  [⟨"Keyword", "function", 0, 8⟩, ⟨"Punctuator", "*", 9, 10⟩,
   ⟨"Identifier", "foo", 10, 13⟩, ⟨"Punctuator", "(", 13, 14⟩,
   ⟨"Punctuator", ")", 14, 15⟩, ⟨"Punctuator", "\x7b", 15, 16⟩,
   ⟨"Punctuator", "\x7d", 16, 17⟩]

/-- The `FunctionDeclaration` of `function *foo(){}`. -/
def nodeB : FnNode := ⟨true, true, 0, 17, ⟨.Program, none, 0, 17⟩⟩

/-- Token stream of the source text `class A \x7b *foo()\x7b\x7d \x7d`. -/
def tokensM : List Token :=
  [⟨"Keyword", "class", 0, 5⟩, ⟨"Identifier", "A", 6, 7⟩,
   ⟨"Punctuator", "\x7b", 8, 9⟩, ⟨"Punctuator", "*", 10, 11⟩,
   ⟨"Identifier", "foo", 11, 14⟩, ⟨"Punctuator", "(", 14, 15⟩,
   ⟨"Punctuator", ")", 15, 16⟩, ⟨"Punctuator", "\x7b", 16, 17⟩,
   ⟨"Punctuator", "\x7d", 17, 18⟩, ⟨"Punctuator", "\x7d", 19, 20⟩]

/-- The generator method's `FunctionExpression` inside that class: its
parent is the `MethodDefinition` spanning `*foo()\x7b\x7d`, whose first
token is the star itself. -/
def nodeM : FnNode := ⟨true, false, 14, 18, ⟨.MethodDefinition, none, 10, 18⟩⟩

/-- Token stream of the call `f<(T)>(x)` — explicit type arguments with a
parenthesis inside them. -/
def tokensC : List Token :=
  [⟨"Identifier", "f", 0, 1⟩, ⟨"Punctuator", "<", 1, 2⟩,
   ⟨"Punctuator", "(", 2, 3⟩, ⟨"Identifier", "T", 3, 4⟩,
   ⟨"Punctuator", ")", 4, 5⟩, ⟨"Punctuator", ">", 5, 6⟩,
   ⟨"Punctuator", "(", 6, 7⟩, ⟨"Identifier", "x", 7, 8⟩,
   ⟨"Punctuator", ")", 8, 9⟩]

/-- The sole argument `x` of that call. -/
def argC : ENode := ⟨.Identifier, 7, 8, 1⟩

/-- The `CallExpression` node of `f<(T)>(x)`. -/
def cnodeC : CallNode := ⟨.CallExpression, ⟨.Identifier, 0, 1, 0⟩, [argC], 0⟩

/-- A type-assertion expression standing in a `for` header's init slot. -/
def taInitE : ENode := ⟨.TSAsExpression, 5, 12, 0⟩

/-- A second type-assertion expression standing in the test slot. -/
def taTestE : ENode := ⟨.TSTypeAssertion, 14, 21, 1⟩

/-- A `for` statement whose init and test clauses are both type
assertions. -/
def forBothE : ForNode := ⟨some taInitE, some taTestE, none, 0⟩

/-- A type-assertion right-hand iteration target. -/
def taRightE : ENode := ⟨.TSAsExpression, 12, 20, 2⟩

/-- A `for-in` statement whose right-hand side is a type assertion. -/
def forInTA : ForEachNode := ⟨.ForInStatement, taRightE, 0⟩

/-- A single-line JSX element child `<a/>`. -/
def jsxElemA : JSXChild := ⟨.JSXElement, [], ['<', 'a', '/', '>'], false⟩

/-- A JSXText sibling containing a single newline (no blank line). -/
def jsxTextNl : JSXChild := ⟨.JSXText, ['\n'], ['\n'], false⟩

/-- A single-line JSX element child `<b/>`. -/
def jsxElemB : JSXChild := ⟨.JSXElement, [], ['<', 'b', '/', '>'], false⟩

/-- jsx-newline options left at their defaults. -/
def jsxOptsDefault : JSXOptions := ⟨false, false⟩

/-! ## Theorems -/

/-- C1: for every adjacent token pair (`leftToken` ending at or before
`rightToken`, as stream neighbours always do) checked by
generator-star-spacing's `checkSpacing` or by either side of arrow-spacing's
`spaces`, a violation is reported iff `(gap > 0)` (with
`gap = rightToken.start - leftToken.end`) differs from the resolved policy
boolean for that side: a gap of zero counts as no space, any positive gap as
a space, regardless of width. -/
theorem violation_iff_gap_xor_policy (m : Modes) (k : FnKind) (s : Side)
    (l r : Token) (hlr : l.rangeEnd ≤ r.rangeStart)
    (rule : SpacingPolicy) (t : ArrowTokens)
    (hb : t.before.rangeEnd ≤ t.arrow.rangeStart)
    (ha : t.arrow.rangeEnd ≤ t.after.rangeStart) :
    (checkSpacing m k s l r).isSome
      = (decide (0 < (r.rangeStart : Int) - (l.rangeEnd : Int)) != (m.policy k).side s)
    ∧ (spacesBefore rule t).isSome = (decide (0 < countSpacesBefore t) != rule.before)
    ∧ (spacesAfter rule t).isSome = (decide (0 < countSpacesAfter t) != rule.after) := by
  refine ⟨?_, ?_, ?_⟩
  · have h0 : ((r.rangeStart : Int) - (l.rangeEnd : Int) ≠ 0)
        ↔ (0 < (r.rangeStart : Int) - (l.rangeEnd : Int)) := by omega
    simp only [checkSpacing, decide_eq_decide.mpr h0]
    cases hg : decide (0 < (r.rangeStart : Int) - (l.rangeEnd : Int)) <;>
      cases hpol : (m.policy k).side s <;>
      simp [hg, hpol]
  · by_cases hpos : 0 < countSpacesBefore t
    · have hne : countSpacesBefore t ≠ 0 := by omega
      cases hrb : rule.before <;> simp [spacesBefore, hpos, hne, hrb]
    · have hnn : (0 : Int) ≤ countSpacesBefore t := by
        simp only [countSpacesBefore]; omega
      have heq : countSpacesBefore t = 0 := by omega
      cases hrb : rule.before <;> simp [spacesBefore, heq, hrb]
  · by_cases hpos : 0 < countSpacesAfter t
    · have hne : countSpacesAfter t ≠ 0 := by omega
      cases hra : rule.after <;> simp [spacesAfter, hpos, hne, hra]
    · have hnn : (0 : Int) ≤ countSpacesAfter t := by
        simp only [countSpacesAfter]; omega
      have heq : countSpacesAfter t = 0 := by omega
      cases hra : rule.after <;> simp [spacesAfter, heq, hra]

/-- Witness for C1 at the tokens of `function* foo() {}` and the arrow
tokens of `var f = (a)=>a;`. -/
theorem violation_iff_gap_xor_policy_witness :
    (checkSpacing (computeModes none) .named .before
        ⟨"Keyword", "function", 0, 8⟩ ⟨"Punctuator", "*", 8, 9⟩).isSome
      = (decide (0 < ((8 : Nat) : Int) - ((8 : Nat) : Int))
          != ((computeModes none).policy .named).side .before)
    ∧ (spacesBefore ⟨true, true⟩ ⟨⟨"Punctuator", ")", 10, 11⟩,
        ⟨"Punctuator", "=>", 11, 13⟩, ⟨"Identifier", "a", 13, 14⟩⟩).isSome
      = (decide (0 < countSpacesBefore ⟨⟨"Punctuator", ")", 10, 11⟩,
          ⟨"Punctuator", "=>", 11, 13⟩, ⟨"Identifier", "a", 13, 14⟩⟩) != true)
    ∧ (spacesAfter ⟨true, true⟩ ⟨⟨"Punctuator", ")", 10, 11⟩,
        ⟨"Punctuator", "=>", 11, 13⟩, ⟨"Identifier", "a", 13, 14⟩⟩).isSome
      = (decide (0 < countSpacesAfter ⟨⟨"Punctuator", ")", 10, 11⟩,
          ⟨"Punctuator", "=>", 11, 13⟩, ⟨"Identifier", "a", 13, 14⟩⟩) != true) :=
  violation_iff_gap_xor_policy (computeModes none) .named .before
    ⟨"Keyword", "function", 0, 8⟩ ⟨"Punctuator", "*", 8, 9⟩ (by decide)
    ⟨true, true⟩ ⟨⟨"Punctuator", ")", 10, 11⟩, ⟨"Punctuator", "=>", 11, 13⟩,
      ⟨"Identifier", "a", 13, 14⟩⟩ (by decide) (by decide)

/-- C2: in the no-extra-parens override for binary/logical expressions, when
both operands are type assertions the base rule is not invoked; when exactly
one is, the base rule receives a copy in which only that operand's kind is
replaced by the lowest-precedence stand-in `SequenceExpression` (the
embedding is pure, so the original node value is untouched by
construction). -/
theorem binaryExp_typeAssertion_cases (node : BinNode) :
    (isTypeAssertion node.left.type = true → isTypeAssertion node.right.type = true →
      binaryExp node = none)
    ∧ (isTypeAssertion node.left.type = true → isTypeAssertion node.right.type = false →
      binaryExp node = some { node with left := { node.left with type := .SequenceExpression } })
    ∧ (isTypeAssertion node.left.type = false → isTypeAssertion node.right.type = true →
      binaryExp node = some { node with right := { node.right with type := .SequenceExpression } })
    ∧ (isTypeAssertion node.left.type = false → isTypeAssertion node.right.type = false →
      binaryExp node = some node) := by
  refine ⟨?_, ?_, ?_, ?_⟩ <;> intro h1 h2 <;>
    simp [binaryExp, toSequenceExpression, h1, h2]

/-- Witness for C2: `(x as T) + y` — left operand is a type assertion, right
is not. -/
theorem binaryExp_typeAssertion_cases_witness :
    binaryExp ⟨.BinaryExpression, ⟨.TSAsExpression, 0, 8, 0⟩, ⟨.Identifier, 11, 12, 1⟩, 0⟩
      = some ⟨.BinaryExpression, ⟨.SequenceExpression, 0, 8, 0⟩, ⟨.Identifier, 11, 12, 1⟩, 0⟩ :=
  (binaryExp_typeAssertion_cases
    ⟨.BinaryExpression, ⟨.TSAsExpression, 0, 8, 0⟩, ⟨.Identifier, 11, 12, 1⟩, 0⟩).2.1
    (by decide) (by decide)

/-- C3 counterexample: the claim says `function* foo() {}` produces no
violation and `function *foo(){}` produces two; on the code it is the other
way around — the default policy (`before:true, after:false`) wants the star
attached to the name. -/
theorem gss_default_star_direction_cex :
    checkFunction (computeModes none) tokensA nodeA ≠ some []
    ∧ checkFunction (computeModes none) tokensB nodeB = some [] :=
  ⟨by decide, by decide⟩

/-- C3 amended: under the default policy `function *foo(){}` produces no
violation, while `function* foo() {}` produces exactly two violations,
`missingBefore` (insert one space before the star) and `unexpectedAfter`
(delete the gap after it), and applying both fixes yields
`function *foo() {}`. -/
theorem gss_default_concrete_behavior :
    checkFunction (computeModes none) tokensB nodeB = some []
    ∧ checkFunction (computeModes none) tokensA nodeA =
        some [⟨⟨"Punctuator", "*", 8, 9⟩, "missingBefore",
                insertTextBefore ⟨"Punctuator", "*", 8, 9⟩ " "⟩,
              ⟨⟨"Punctuator", "*", 8, 9⟩, "unexpectedAfter", removeRange 9 10⟩]
    ∧ applyEdit (applyEdit "function* foo() \x7b\x7d" (removeRange 9 10))
        (insertTextBefore ⟨"Punctuator", "*", 8, 9⟩ " ") = "function *foo() \x7b\x7d" :=
  ⟨by decide, by decide, by decide⟩

/-- C4: for every bucket and both sides, resolving the structured object
`{before:true, after:false}` equals resolving the shorthand `"before"`, and
`{before:false, after:false}` equals `"neither"` (for any defaults, hence in
any bucket); and any bucket without an override resolves to the
already-overridden global default, itself obtained by resolving the
top-level option against `optionDefinitions.before`. -/
theorem gss_option_resolution (d : SpacingPolicy) (top : TopOption) :
    optionToDefinition (.obj (some true) (some false)) d
        = optionToDefinition (.str .before) d
    ∧ optionToDefinition (.obj (some false) (some false)) d
        = optionToDefinition (.str .neither) d
    ∧ (top.namedOpt = .undef →
        (computeModes (some top)).named
          = optionToDefinition top.asBucket (optionDefinitions .before))
    ∧ (top.anonymousOpt = .undef →
        (computeModes (some top)).anonymous
          = optionToDefinition top.asBucket (optionDefinitions .before))
    ∧ (top.methodOpt = .undef →
        (computeModes (some top)).method
          = optionToDefinition top.asBucket (optionDefinitions .before)) := by
  refine ⟨rfl, rfl, ?_, ?_, ?_⟩ <;> intro h <;> simp [computeModes, h, optionToDefinition]

/-- Witness for C4 at a top-level option that overrides `before`/`after` and
the anonymous bucket but leaves `named` and `method` unspecified. -/
theorem gss_option_resolution_witness :
    (computeModes (some (.obj ⟨some false, some true, .undef, .str .both, .undef⟩))).named
        = optionToDefinition (TopOption.asBucket (.obj ⟨some false, some true, .undef, .str .both, .undef⟩))
            (optionDefinitions .before)
    ∧ (computeModes (some (.obj ⟨some false, some true, .undef, .str .both, .undef⟩))).method
        = optionToDefinition (TopOption.asBucket (.obj ⟨some false, some true, .undef, .str .both, .undef⟩))
            (optionDefinitions .before) :=
  ⟨(gss_option_resolution ⟨true, true⟩
      (.obj ⟨some false, some true, .undef, .str .both, .undef⟩)).2.2.1 rfl,
   (gss_option_resolution ⟨true, true⟩
      (.obj ⟨some false, some true, .undef, .str .both, .undef⟩)).2.2.2.2 rfl⟩

/-- C5 counterexample: a `missingBefore` violation — space must be inserted
*before* the delimiter, so the claim says the location is the non-delimiter
token — is in fact reported on the star (delimiter) token itself. -/
theorem report_location_cex :
    checkSpacing (computeModes none) .named .before
        ⟨"Keyword", "function", 0, 8⟩ ⟨"Punctuator", "*", 8, 9⟩
      = some ⟨⟨"Punctuator", "*", 8, 9⟩, "missingBefore", ⟨8, 8, " "⟩⟩
    ∧ isStarToken ⟨"Punctuator", "*", 8, 9⟩ = true
    ∧ isStarToken ⟨"Keyword", "function", 0, 8⟩ = false :=
  ⟨by decide, by decide, by decide⟩

/-- C5 amended: generator-star-spacing reports every violation on the star
token itself — `checkSpacing` picks the left token exactly when it is the
star (the after-side call) and the right token otherwise (the before-side
call, whose right token is the star) — while arrow-spacing reports every
violation on the non-delimiter neighbour of the checked side (the token
before the arrow for before-side violations, the token after it for
after-side ones), including `expectedAfter`. -/
theorem report_location_amended :
    (∀ (m : Modes) (k : FnKind) (l r : Token) (v : Violation),
      l.value ≠ "*" → checkSpacing m k .before l r = some v → v.node = r)
    ∧ (∀ (m : Modes) (k : FnKind) (l r : Token) (v : Violation),
      l.value = "*" → checkSpacing m k .after l r = some v → v.node = l)
    ∧ (∀ (rule : SpacingPolicy) (t : ArrowTokens) (v : Violation),
      spacesBefore rule t = some v → v.node = t.before)
    ∧ (∀ (rule : SpacingPolicy) (t : ArrowTokens) (v : Violation),
      spacesAfter rule t = some v → v.node = t.after) := by
  refine ⟨?_, ?_, ?_, ?_⟩
  · intro m k l r v hl h
    have hbeq : (l.value == "*") = false := by simp [hl]
    simp only [checkSpacing, hbeq] at h
    split at h
    · cases Option.some.inj h
      simp
    · exact Option.noConfusion h
  · intro m k l r v hl h
    have hbeq : (l.value == "*") = true := by simp [hl]
    simp only [checkSpacing, hbeq] at h
    split at h
    · cases Option.some.inj h
      simp
    · exact Option.noConfusion h
  · intro rule t v h
    simp only [spacesBefore] at h
    split at h <;> split at h <;>
      first
      | (cases Option.some.inj h; rfl)
      | exact Option.noConfusion h
  · intro rule t v h
    simp only [spacesAfter] at h
    split at h <;> split at h <;>
      first
      | (cases Option.some.inj h; rfl)
      | exact Option.noConfusion h

/-- Witness for C5's amended statement at the `missingBefore` violation of
`function* foo() {}`. -/
theorem report_location_amended_witness :
    (⟨⟨"Punctuator", "*", 8, 9⟩, "missingBefore", ⟨8, 8, " "⟩⟩ : Violation).node
      = ⟨"Punctuator", "*", 8, 9⟩ :=
  report_location_amended.1 (computeModes none) .named
    ⟨"Keyword", "function", 0, 8⟩ ⟨"Punctuator", "*", 8, 9⟩
    ⟨⟨"Punctuator", "*", 8, 9⟩, "missingBefore", ⟨8, 8, " "⟩⟩
    (by decide) (by decide)

/-- Helper: the after-side `checkSpacing` call can only produce the two
after-side message kinds. -/
theorem checkSpacing_after_messageId (m : Modes) (k : FnKind) (l r : Token) (v : Violation)
    (h : checkSpacing m k .after l r = some v) :
    v.messageId = "missingAfter" ∨ v.messageId = "unexpectedAfter" := by
  simp only [checkSpacing] at h
  split at h
  · cases Option.some.inj h
    cases hsp : (m.policy k).side .after
    · right
      simp [hsp]
      decide
    · left
      simp [hsp]
      decide
  · exact Option.noConfusion h

/-- C6: for a generator classified into the method bucket whose star token
is the first token of the owning member definition, `checkFunction` runs
only the after-side check (so every violation it can produce is an
after-side one); for every other generator both sides are checked, before
first. -/
theorem method_star_first_skips_before (m : Modes) (tokens : List Token) (node : FnNode)
    (star prev next : Token)
    (hgen : node.generator = true)
    (hstar : getStarToken tokens node = some star)
    (hprev : getTokenBeforeTok tokens star = some prev)
    (hnext : getTokenAfterTok tokens star = some next) :
    (classifyKind node = .method →
      getFirstTokenIn tokens node.parent.rangeStart node.parent.rangeEnd (fun _ => true)
          = some star →
      checkFunction m tokens node
          = some (checkSpacing m .method .after star next).toList
        ∧ ∀ v ∈ (checkSpacing m .method .after star next).toList,
            v.messageId = "missingAfter" ∨ v.messageId = "unexpectedAfter")
    ∧ (¬(classifyKind node = .method
        ∧ getFirstTokenIn tokens node.parent.rangeStart node.parent.rangeEnd (fun _ => true)
            = some star) →
      checkFunction m tokens node =
        some ((checkSpacing m (classifyKind node) .before prev star).toList
          ++ (checkSpacing m (classifyKind node) .after star next).toList)) := by
  constructor
  · intro hk hfirst
    constructor
    · simp [checkFunction, hgen, hstar, hprev, hnext, hk, hfirst]
    · intro v hv
      rcases hcs : checkSpacing m .method .after star next with _ | w
      · rw [hcs] at hv
        cases hv
      · rw [hcs] at hv
        simp only [Option.toList_some, List.mem_singleton] at hv
        subst hv
        exact checkSpacing_after_messageId m .method star next v hcs
  · intro hneg
    have h1 : (classifyKind node == FnKind.method
        && (getFirstTokenIn tokens node.parent.rangeStart node.parent.rangeEnd (fun _ => true)
            == some star)) = false := by
      by_cases hk : classifyKind node = .method
      · have h2 : getFirstTokenIn tokens node.parent.rangeStart node.parent.rangeEnd
            (fun _ => true) ≠ some star := fun hf => hneg ⟨hk, hf⟩
        simp [hk, h2]
      · simp [hk]
    simp [checkFunction, hgen, hstar, hprev, hnext, h1]

/-- Witness for C6 at the generator method of `class A { *foo(){} }`, whose
star is the first token of its `MethodDefinition`. -/
theorem method_star_first_skips_before_witness :
    checkFunction (computeModes none) tokensM nodeM
        = some (checkSpacing (computeModes none) .method .after
            ⟨"Punctuator", "*", 10, 11⟩ ⟨"Identifier", "foo", 11, 14⟩).toList
    ∧ ∀ v ∈ (checkSpacing (computeModes none) .method .after
          ⟨"Punctuator", "*", 10, 11⟩ ⟨"Identifier", "foo", 11, 14⟩).toList,
        v.messageId = "missingAfter" ∨ v.messageId = "unexpectedAfter" :=
  (method_star_first_skips_before (computeModes none) tokensM nodeM
      ⟨"Punctuator", "*", 10, 11⟩ ⟨"Punctuator", "\x7b", 8, 9⟩
      ⟨"Identifier", "foo", 11, 14⟩
      (by decide) (by decide) (by decide) (by decide)).1 (by decide) (by decide)

/-- C7: in the call/new override, with a non-type-assertion callee and
exactly one argument, the base rule receives a copy whose sole argument's
kind is replaced by `SequenceExpression` iff the first opening parenthesis
after the callee differs from the opening parenthesis before the argument
(explicit type-argument parentheses intervene), and the node unchanged
otherwise. -/
theorem callExp_single_arg_typeArgs (tokens : List Token) (node : CallNode) (arg0 : ENode)
    (hcallee : isTypeAssertion node.callee.type = false)
    (hargs : node.arguments = [arg0]) :
    callExp tokens node =
      if getTokenAfterPos tokens node.callee.rangeEnd isOpeningParenToken
          ≠ getTokenBeforePos tokens arg0.rangeStart isOpeningParenToken then
        { node with arguments := [toSequenceExpression arg0] }
      else
        node := by
  simp only [callExp, hcallee, hargs]
  simp

/-- Witness for C7 at the call `f<(T)>(x)`: the parenthesis inside the
explicit type arguments makes the two located parentheses differ, so the
sole argument is substituted. -/
theorem callExp_single_arg_typeArgs_witness :
    callExp tokensC cnodeC = { cnodeC with arguments := [⟨.SequenceExpression, 7, 8, 1⟩] } := by
  rw [callExp_single_arg_typeArgs tokensC cnodeC argC (by decide) rfl]
  decide

/-- C8 counterexample: with init and test both type assertions, the claim
says each is exempted; the code's early returns exempt only init (set to
null), and the test clause — still a type assertion — is handed to the base
rule unchanged. -/
theorem forStatement_two_assertions_cex :
    forStatement forBothE = { forBothE with init := none }
    ∧ (forStatement forBothE).test = forBothE.test
    ∧ (forStatement forBothE).test = some taTestE
    ∧ isTypeAssertion taTestE.type = true :=
  ⟨by decide, by decide, by decide, by decide⟩

/-- C8 amended: only the first type-assertion clause in init, test, update
order is removed (set to null) in the copy handed to the base rule; later
clauses — type assertions or not — pass through unchanged, so at most one
clause per node is exempted. -/
theorem forStatement_first_assertion_only (node : ForNode) :
    (isTAClause node.init = true → forStatement node = { node with init := none })
    ∧ (isTAClause node.init = false → isTAClause node.test = true →
        forStatement node = { node with test := none })
    ∧ (isTAClause node.init = false → isTAClause node.test = false →
        isTAClause node.update = true → forStatement node = { node with update := none })
    ∧ (isTAClause node.init = false → isTAClause node.test = false →
        isTAClause node.update = false → forStatement node = node) := by
  refine ⟨?_, ?_, ?_, ?_⟩ <;> intros <;> simp [forStatement, *]

/-- Witness for C8's amended statement: a header whose only type assertion
is the test clause has exactly that clause removed. -/
theorem forStatement_first_assertion_only_witness :
    forStatement ⟨none, some taTestE, none, 0⟩ = ⟨none, none, none, 0⟩ :=
  (forStatement_first_assertion_only ⟨none, some taTestE, none, 0⟩).2.1
    (by decide) (by decide)

/-- C9 counterexample: in the older-host (combined-selector) configuration a
for-in whose right is a type assertion is *not* skipped — the combined
delegate is invoked with the right substituted — while with per-kind
callbacks present the for-in target is skipped outright, not substituted:
both directions of the claim are reversed. -/
theorem forEach_capability_cex :
    (forEachDispatch false forInTA).2 ≠ none
    ∧ forEachDispatch false forInTA = (.combinedDelegate, some (forEachSubstituted forInTA))
    ∧ forEachDispatch true forInTA = (.forInDelegate, none) :=
  ⟨by decide, by decide, by decide⟩

/-- C9 amended: when the base rule lacks per-kind ForIn/ForOf callbacks, a
combined-selector override is installed and only the combined delegate is
ever invoked (so nothing absent is called), and a type-assertion iteration
target is handled by substitution (node passed as `ForOfStatement` with a
`SequenceExpression` right); with per-kind callbacks present, a for-in's
type-assertion target is skipped outright while a for-of's is handled by
substitution. -/
theorem forEach_capability_dispatch (n : ForEachNode)
    (h : isTypeAssertion n.right.type = true) :
    forEachDispatch true { n with type := .ForInStatement } = (.forInDelegate, none)
    ∧ forEachDispatch true { n with type := .ForOfStatement }
        = (.forOfDelegate, some (forEachSubstituted { n with type := .ForOfStatement }))
    ∧ forEachDispatch false n = (.combinedDelegate, some (forEachSubstituted n)) := by
  refine ⟨?_, ?_, ?_⟩ <;>
    simp [forEachDispatch, forInOverride, forOfOverride, combinedOverride, h]

/-- Witness for C9's amended statement at a concrete for-in node with a
type-assertion right-hand side. -/
theorem forEach_capability_dispatch_witness :
    forEachDispatch true { forInTA with type := .ForInStatement } = (.forInDelegate, none)
    ∧ forEachDispatch true { forInTA with type := .ForOfStatement }
        = (.forOfDelegate, some (forEachSubstituted { forInTA with type := .ForOfStatement }))
    ∧ forEachDispatch false forInTA = (.combinedDelegate, some (forEachSubstituted forInTA)) :=
  forEach_capability_dispatch forInTA (by decide)

/-- C10: a jsx-newline report for the child at `index` exists only when that
child is a JSX element/expression-container followed by a first adjacent
sibling of kind Literal or JSXText and an existing second adjacent sibling,
and the report's location node is always that second adjacent sibling;
consequently an element whose raw text opens a block comment in curly
braces never produces a report (second conjunct), nor does a child with no
following sibling, such as the last child (third conjunct). -/
theorem jsx_newline_report_constraints (opts : JSXOptions) (elements : List JSXChild)
    (index : Nat) :
    (∀ r, checkChild opts elements index = some r →
      ∃ element firstSib secondSib,
        elements.get? index = some element
        ∧ elements.get? (index + 1) = some firstSib
        ∧ elements.get? (index + 2) = some secondSib
        ∧ (firstSib.ctype = .Literal ∨ firstSib.ctype = .JSXText)
        ∧ r.node = secondSib
        ∧ isBlockCommentInCurlyBraces element = false)
    ∧ (∀ element, elements.get? index = some element →
        isBlockCommentInCurlyBraces element = true →
        checkChild opts elements index = none)
    ∧ (elements.get? (index + 1) = none → checkChild opts elements index = none) := by
  refine ⟨?_, ?_, ?_⟩
  · intro r h
    simp only [checkChild] at h
    split at h
    · exact Option.noConfusion h
    · rename_i element he
      split at h
      · rename_i hel
        split at h
        · rename_i firstSib secondSib h1 h2
          split at h
          · rename_i hfs
            split at h
            · exact Option.noConfusion h
            · rename_i hbc
              refine ⟨element, firstSib, secondSib, he, h1, h2, ?_, ?_, ?_⟩
              · simpa using hfs
              · split at h
                · split at h
                  · exact Option.noConfusion h
                  · cases Option.some.inj h
                    rfl
                · split at h
                  · exact Option.noConfusion h
                  · cases Option.some.inj h
                    rfl
              · simpa using hbc
          · exact Option.noConfusion h
        · exact Option.noConfusion h
      · exact Option.noConfusion h
  · intro element he hbc
    simp only [checkChild, he]
    split
    · split
      · split
        · simp [hbc]
        · rfl
      · rfl
    · rfl
  · intro h1
    simp only [checkChild]
    split
    · rfl
    · split
      · split
        · rename_i firstSib secondSib h1' h2'
          rw [h1] at h1'
          exact Option.noConfusion h1'
        · rfl
      · rfl

/-- Witness for C10 at `[<a/>, "\n", <b/>]` with default options: the
`require` report exists and is located on the second sibling `<b/>`. -/
theorem jsx_newline_report_constraints_witness :
    ∃ element firstSib secondSib,
      [jsxElemA, jsxTextNl, jsxElemB].get? 0 = some element
      ∧ [jsxElemA, jsxTextNl, jsxElemB].get? 1 = some firstSib
      ∧ [jsxElemA, jsxTextNl, jsxElemB].get? 2 = some secondSib
      ∧ (firstSib.ctype = .Literal ∨ firstSib.ctype = .JSXText)
      ∧ (⟨"require", jsxElemB⟩ : JSXReport).node = secondSib
      ∧ isBlockCommentInCurlyBraces element = false :=
  (jsx_newline_report_constraints jsxOptsDefault [jsxElemA, jsxTextNl, jsxElemB] 0).1
    ⟨"require", jsxElemB⟩ (by decide)

end ES
